import Mathlib

/-!
Verification development for the SwiftDevBot module-lifecycle kernel
(`core/registry.py`, `core/kernel.py`, `core/events.py`, `core/module_api.py`).

Python dictionaries are modelled as insertion-ordered association lists
(`List (String × α)`): `d[k] = v` updates the value in place when the key is
present and appends otherwise, `k in d` is key membership, `d.get(k)` is
`dictLookup`.  Service/handler instances, for which the Python code only ever
uses object identity, are modelled as `Nat` identifiers.  `datetime.now()`
values are modelled as explicit `Nat` timestamps passed in as arguments.
Claim-irrelevant record fields stored alongside an instance (free-form
`metadata`, log messages) are elided.
-/

namespace SDB

/-- `d.get(k)`: first binding of `k` in the insertion-ordered dict `d`. -/
def dictLookup {α : Type} (d : List (String × α)) (k : String) : Option α :=
  match d with
  | [] => none
  | (k', v) :: rest => if k' = k then some v else dictLookup rest k

/-- `d[k] = v` with Python dict semantics: update in place if `k` is bound,
append otherwise. -/
def dictInsert {α : Type} (d : List (String × α)) (k : String) (v : α) :
    List (String × α) :=
  match d with
  | [] => [(k, v)]
  | (k', v') :: rest =>
    if k' = k then (k', v) :: rest else (k', v') :: dictInsert rest k v

theorem dictLookup_insert_self {α : Type} (d : List (String × α)) (k : String)
    (v : α) : dictLookup (dictInsert d k v) k = some v := by
  induction d with
  | nil => simp [dictInsert, dictLookup]
  | cons hd tl ih =>
    obtain ⟨k', v'⟩ := hd
    by_cases h : k' = k
    · simp [dictInsert, dictLookup, h]
    · simp [dictInsert, dictLookup, h, ih]

theorem dictLookup_insert_ne {α : Type} (d : List (String × α)) (k k' : String)
    (v : α) (hne : k ≠ k') :
    dictLookup (dictInsert d k v) k' = dictLookup d k' := by
  induction d with
  | nil => simp [dictInsert, dictLookup, hne]
  | cons hd tl ih =>
    obtain ⟨k0, v0⟩ := hd
    by_cases h : k0 = k
    · subst h
      simp [dictInsert, dictLookup, hne]
    · simp [dictInsert, dictLookup, h, ih]

/-! ## Registry (`core/registry.py`)

`Registry.register_service` (lines 18-31): returns `False` if the name is
already bound, otherwise stores the instance under the name and returns
`True`.  The stored `metadata`/`registered_at` fields are elided; only the
instance (a `Nat` id) is kept, matching what `get_service` extracts. -/

/-- `Registry.register_service`: the body of one call, which (see the race
model below) executes without an intervening suspension point. -/
def registerService (services : List (String × Nat)) (name : String)
    (inst : Nat) : List (String × Nat) × Bool :=
  if (dictLookup services name).isSome then (services, false)
  else (dictInsert services name inst, true)

/-- `Registry.get_service`: `self._services.get(name, {}).get('instance')`. -/
def getService (services : List (String × Nat)) (name : String) : Option Nat :=
  dictLookup services name

/-! ### Cooperative-concurrency race model for `register_service` (C1)

In CPython's asyncio, `await lock.acquire()` on an uncontended
`asyncio.Lock` does not suspend (the fast path sets the flag and returns
without awaiting a future), and the critical section of `register_service`
(dict store, log call, return) contains no `await`.  Hence a
`register_service` call, once scheduled, can only suspend at the lock
acquisition, and only when the per-name lock is already held; and no task
ever holds a per-name service lock across a suspension point while the name
is unbound (the only awaited call under that lock, `service.cleanup()` in
`unregister_service`, runs before the `del`).  Consequently, in any
interleaving of two concurrent `register_service` tasks each call body runs
as one atomic step.  The model below makes the scheduler explicit: a
schedule is an arbitrary list of task choices, and a chosen task that has
not yet run executes its whole call atomically. -/

structure RaceState where
  services : List (String × Nat)
  res0 : Option Bool
  res1 : Option Bool
deriving DecidableEq, Repr

/-- One scheduler decision: run task `1` (`who = true`) or task `0`
(`who = false`); a task that already completed is not re-run. -/
def raceStep (n0 : String) (i0 : Nat) (n1 : String) (i1 : Nat)
    (st : RaceState) (who : Bool) : RaceState :=
  if who then
    match st.res1 with
    | some _ => st
    | none =>
      let r := registerService st.services n1 i1
      { st with services := r.1, res1 := some r.2 }
  else
    match st.res0 with
    | some _ => st
    | none =>
      let r := registerService st.services n0 i0
      { st with services := r.1, res0 := some r.2 }

/-- Run a whole schedule of scheduler decisions. -/
def raceRun (n0 : String) (i0 : Nat) (n1 : String) (i1 : Nat) :
    List Bool → RaceState → RaceState
  | [], st => st
  | w :: ws, st => raceRun n0 i0 n1 i1 ws (raceStep n0 i0 n1 i1 st w)

/-- Reachable-state invariant for two racing registrations of the same
name `n`: either nobody has run, or the first completed task won and holds
the binding, and a task completing second loses. -/
def sameNameInv (n : String) (i0 i1 : Nat) (init : List (String × Nat))
    (st : RaceState) : Prop :=
  (st.res0 = none ∧ st.res1 = none ∧ st.services = init)
  ∨ (st.res0 = some true ∧ st.res1 = none ∧
      st.services = dictInsert init n i0)
  ∨ (st.res0 = none ∧ st.res1 = some true ∧
      st.services = dictInsert init n i1)
  ∨ (st.res0 = some true ∧ st.res1 = some false ∧
      st.services = dictInsert init n i0)
  ∨ (st.res0 = some false ∧ st.res1 = some true ∧
      st.services = dictInsert init n i1)

theorem sameNameInv_step (n : String) (i0 i1 : Nat)
    (init : List (String × Nat)) (h : dictLookup init n = none)
    (st : RaceState) (who : Bool) (hinv : sameNameInv n i0 i1 init st) :
    sameNameInv n i0 i1 init (raceStep n i0 n i1 st who) := by
  obtain ⟨svc, r0, r1⟩ := st
  rcases hinv with ⟨h0, h1, hs⟩ | ⟨h0, h1, hs⟩ | ⟨h0, h1, hs⟩ |
    ⟨h0, h1, hs⟩ | ⟨h0, h1, hs⟩ <;>
      simp only at h0 h1 hs <;> subst h0 <;> subst h1 <;> subst hs <;>
      cases who <;>
      simp [sameNameInv, raceStep, registerService, h, dictLookup_insert_self]

theorem sameNameInv_run (n : String) (i0 i1 : Nat)
    (init : List (String × Nat)) (h : dictLookup init n = none)
    (sched : List Bool) (st : RaceState)
    (hinv : sameNameInv n i0 i1 init st) :
    sameNameInv n i0 i1 init (raceRun n i0 n i1 sched st) := by
  induction sched generalizing st with
  | nil => exact hinv
  | cons w ws ih =>
    exact ih _ (sameNameInv_step n i0 i1 init h st w hinv)

/-- Reachable-state invariant for two racing registrations of distinct
names: a task that has not completed finds its name still unbound, and a
completed task has returned `true`. -/
def diffNameInv (n0 : String) (n1 : String) (st : RaceState) : Prop :=
  ((st.res0 = none ∧ dictLookup st.services n0 = none) ∨ st.res0 = some true)
  ∧ ((st.res1 = none ∧ dictLookup st.services n1 = none) ∨ st.res1 = some true)

theorem diffNameInv_step (n0 : String) (i0 : Nat) (n1 : String) (i1 : Nat)
    (hne : n0 ≠ n1) (st : RaceState) (who : Bool)
    (hinv : diffNameInv n0 n1 st) :
    diffNameInv n0 n1 (raceStep n0 i0 n1 i1 st who) := by
  obtain ⟨svc, r0, r1⟩ := st
  obtain ⟨hl, hr⟩ := hinv
  rcases hl with ⟨h0, hl0⟩ | h0 <;> rcases hr with ⟨h1, hl1⟩ | h1 <;>
    simp only at h0 h1 <;> subst h0 <;> subst h1 <;> cases who <;>
    simp_all [diffNameInv, raceStep, registerService, dictLookup_insert_self,
      dictLookup_insert_ne, hne, Ne.symm hne]

theorem diffNameInv_run (n0 : String) (i0 : Nat) (n1 : String) (i1 : Nat)
    (hne : n0 ≠ n1) (sched : List Bool) (st : RaceState)
    (hinv : diffNameInv n0 n1 st) :
    diffNameInv n0 n1 (raceRun n0 i0 n1 i1 sched st) := by
  induction sched generalizing st with
  | nil => exact hinv
  | cons w ws ih =>
    exact ih _ (diffNameInv_step n0 i0 n1 i1 hne st w hinv)

/-- C1: For every pair of concurrent `Registry.register_service` calls,
under any interleaved (cooperative-concurrency) schedule in which both
calls complete: if the two calls use distinct (unbound) names, both return
`True`; if they use the same name, exactly one returns `True` and its
instance is the one stored, and the other returns `False`. -/
theorem register_service_race_exactly_one_winner
    (init : List (String × Nat)) (n0 n1 : String) (i0 i1 : Nat)
    (sched : List Bool) (r0 r1 : Bool)
    (h0 : dictLookup init n0 = none) (h1 : dictLookup init n1 = none)
    (hdone0 : (raceRun n0 i0 n1 i1 sched ⟨init, none, none⟩).res0 = some r0)
    (hdone1 : (raceRun n0 i0 n1 i1 sched ⟨init, none, none⟩).res1 = some r1) :
    (n0 ≠ n1 → r0 = true ∧ r1 = true) ∧
    (n0 = n1 →
      ((r0 = true ∧ r1 = false ∧
          getService (raceRun n0 i0 n1 i1 sched
            ⟨init, none, none⟩).services n0 = some i0) ∨
       (r0 = false ∧ r1 = true ∧
          getService (raceRun n0 i0 n1 i1 sched
            ⟨init, none, none⟩).services n0 = some i1))) := by
  constructor
  · intro hne
    have hinv := diffNameInv_run n0 i0 n1 i1 hne sched ⟨init, none, none⟩
      ⟨Or.inl ⟨rfl, h0⟩, Or.inl ⟨rfl, h1⟩⟩
    obtain ⟨hl, hr⟩ := hinv
    constructor
    · rcases hl with ⟨hn, _⟩ | ht
      · rw [hdone0] at hn; cases hn
      · rw [hdone0] at ht; exact Option.some_inj.mp ht
    · rcases hr with ⟨hn, _⟩ | ht
      · rw [hdone1] at hn; cases hn
      · rw [hdone1] at ht; exact Option.some_inj.mp ht
  · intro heq
    subst heq
    have hinv := sameNameInv_run n0 i0 i1 init h0 sched ⟨init, none, none⟩
      (Or.inl ⟨rfl, rfl, rfl⟩)
    rcases hinv with ⟨ha, hb, _⟩ | ⟨ha, hb, _⟩ | ⟨ha, hb, _⟩ |
      ⟨ha, hb, hs⟩ | ⟨ha, hb, hs⟩
    · rw [hdone0] at ha; cases ha
    · rw [hdone1] at hb; cases hb
    · rw [hdone0] at ha; cases ha
    · left
      refine ⟨?_, ?_, ?_⟩
      · rw [hdone0] at ha; exact Option.some_inj.mp ha
      · rw [hdone1] at hb; exact Option.some_inj.mp hb
      · rw [getService, hs, dictLookup_insert_self]
    · right
      refine ⟨?_, ?_, ?_⟩
      · rw [hdone0] at ha; exact Option.some_inj.mp ha
      · rw [hdone1] at hb; exact Option.some_inj.mp hb
      · rw [getService, hs, dictLookup_insert_self]

/-- Witness for C1 at a concrete schedule: both tasks register `"db"`,
task 0 is scheduled first; task 0 wins with its instance `5`, task 1
returns `False`. -/
theorem register_service_race_exactly_one_winner_witness :
    (raceRun "db" 5 "db" 7 [false, true] ⟨[], none, none⟩).res0 = some true ∧
    (raceRun "db" 5 "db" 7 [false, true] ⟨[], none, none⟩).res1 = some false ∧
    ((true = true ∧ false = false ∧
        getService (raceRun "db" 5 "db" 7 [false, true]
          ⟨[], none, none⟩).services "db" = some 5) ∨
     (true = false ∧ false = true ∧
        getService (raceRun "db" 5 "db" 7 [false, true]
          ⟨[], none, none⟩).services "db" = some 7)) :=
  ⟨by decide, by decide,
    (register_service_race_exactly_one_winner [] "db" "db" 5 7 [false, true]
      true false (by decide) (by decide) (by decide) (by decide)).2 rfl⟩

/-! ## `Registry.register_command` (lines 46-60) and
`Registry.register_handler` (lines 62-75)

Commands map a command token to its owning entry; the handler map is a
`defaultdict(list)` from event type to a list of handler-info dicts.  The
Python code builds `handler_info = {'module': …, 'handler': …,
'registered_at': datetime.now()}` and tests `handler_info not in
self._handlers[event_type]`, i.e. full dict equality *including the
timestamp*.  `HandlerInfo` mirrors that dict, with `registeredAt` the
`datetime.now()` value of the call. -/

structure HandlerInfo where
  module : String
  handler : Nat
  registeredAt : Nat
deriving DecidableEq, Repr

/-- `Registry.register_command`: first registration of a command token
wins; later registrations (by any module) return `False`. -/
def registerCommand (commands : List (String × (String × Nat)))
    (moduleName : String) (command : String) (handler : Nat) :
    List (String × (String × Nat)) × Bool :=
  if (dictLookup commands command).isSome then (commands, false)
  else (dictInsert commands command (moduleName, handler), true)

/-- `Registry.register_handler`: builds the handler-info dict (including
the current `datetime.now()` value `now`) and appends it unless an equal
dict is already in the event type's list. -/
def registerHandler (handlers : List (String × List HandlerInfo))
    (moduleName : String) (eventType : String) (handler : Nat) (now : Nat) :
    List (String × List HandlerInfo) × Bool :=
  let cur := (dictLookup handlers eventType).getD []
  let info : HandlerInfo := ⟨moduleName, handler, now⟩
  if info ∈ cur then (handlers, false)
  else (dictInsert handlers eventType (cur ++ [info]), true)

/-! ## Service Container paths (`core/kernel.py` lines 280-282,
`core/module_api.py` lines 79-84)

`Kernel.register_service` is a bare `self._services[name] = service`;
`ModuleAPI.register_service` guards it with `if name not in
self._kernel.services`. -/

/-- `Kernel.register_service`: unconditional dict store. -/
def kernelRegisterService (services : List (String × Nat)) (name : String)
    (service : Nat) : List (String × Nat) :=
  dictInsert services name service

/-- `ModuleAPI.register_service`: store through the kernel only when the
name is unbound, else return `False`. -/
def moduleAPIRegisterService (services : List (String × Nat)) (name : String)
    (service : Nat) : List (String × Nat) × Bool :=
  if (dictLookup services name).isSome then (services, false)
  else (kernelRegisterService services name service, true)

/-! ## `ModuleAPI.register_command` / `ModuleAPI.register_handler`
(`core/module_api.py` lines 47-61)

Both check `self._kernel.is_running` first and return `False` without
touching the registry when the kernel is not running. -/

/-- `ModuleAPI.register_command`: refuse when the kernel is not running,
otherwise delegate to `Registry.register_command`. -/
def moduleAPIRegisterCommand (isRunning : Bool)
    (commands : List (String × (String × Nat))) (moduleName : String)
    (command : String) (handler : Nat) :
    List (String × (String × Nat)) × Bool :=
  if !isRunning then (commands, false)
  else registerCommand commands moduleName command handler

/-- `ModuleAPI.register_handler`: refuse when the kernel is not running,
otherwise delegate to `Registry.register_handler`. -/
def moduleAPIRegisterHandler (isRunning : Bool)
    (handlers : List (String × List HandlerInfo)) (moduleName : String)
    (eventType : String) (handler : Nat) (now : Nat) :
    List (String × List HandlerInfo) × Bool :=
  if !isRunning then (handlers, false)
  else registerHandler handlers moduleName eventType handler now

/-- C3: `register_handler` is not idempotent as claimed — because the
compared dict includes the `registered_at` timestamp, a second
registration of the same `(module, handler)` pair for the same event type
at a later `datetime.now()` value returns `True` again and appends a
duplicate entry, where the claim (and the evident intent of the
membership test) requires `False` and an unchanged list. -/
theorem register_handler_duplicate_appended :
    (registerHandler [] "m" "evt" 3 0).2 = true ∧
    (registerHandler (registerHandler [] "m" "evt" 3 0).1
        "m" "evt" 3 1).2 = true ∧
    ((dictLookup (registerHandler (registerHandler [] "m" "evt" 3 0).1
        "m" "evt" 3 1).1 "evt").getD []).length = 2 := by
  decide

/-- C5 counterexample: through the `Kernel.register_service` path the
second registration under a bound name silently replaces the first
instance — after registering instance `1` as `"db"`, a second registration
of instance `2` makes lookup return `2`, not the first instance. -/
theorem kernel_register_service_overwrites :
    dictLookup (kernelRegisterService
        (kernelRegisterService [] "db" 1) "db" 2) "db" = some 2 ∧
    dictLookup (kernelRegisterService
        (kernelRegisterService [] "db" 1) "db" 2) "db" ≠ some 1 := by
  decide

/-- C5 (amended): the `Registry.register_service` and
`ModuleAPI.register_service` paths reject a second registration under a
bound name, returning `False` and leaving the stored instance untouched;
`Kernel.register_service` itself overwrites unconditionally. -/
theorem register_service_unique_except_kernel_path
    (services : List (String × Nat)) (name : String) (inst1 inst2 : Nat)
    (hbound : dictLookup services name = some inst1) :
    registerService services name inst2 = (services, false) ∧
    moduleAPIRegisterService services name inst2 = (services, false) ∧
    getService (registerService services name inst2).1 name = some inst1 ∧
    getService (moduleAPIRegisterService services name inst2).1 name =
      some inst1 := by
  refine ⟨?_, ?_, ?_, ?_⟩ <;>
    simp [registerService, moduleAPIRegisterService, getService, hbound]

/-- Witness for the amended C5 at a concrete bound name. -/
theorem register_service_unique_except_kernel_path_witness :
    dictLookup [("db", 1)] "db" = some 1 ∧
    registerService [("db", 1)] "db" 2 = ([("db", 1)], false) ∧
    moduleAPIRegisterService [("db", 1)] "db" 2 = ([("db", 1)], false) :=
  ⟨by decide,
    (register_service_unique_except_kernel_path [("db", 1)] "db" 1 2
      (by decide)).1,
    (register_service_unique_except_kernel_path [("db", 1)] "db" 1 2
      (by decide)).2.1⟩

/-- C10: registration through the Module API with the kernel not running
returns `False` and leaves the command and handler maps untouched, no
matter the arguments — in particular even when the command token is free
and the handler pair is new. -/
theorem module_api_registration_requires_running
    (commands : List (String × (String × Nat)))
    (handlers : List (String × List HandlerInfo))
    (moduleName command eventType : String) (handler : Nat) (now : Nat) :
    moduleAPIRegisterCommand false commands moduleName command handler =
      (commands, false) ∧
    moduleAPIRegisterHandler false handlers moduleName eventType handler now =
      (handlers, false) := by
  constructor
  · simp [moduleAPIRegisterCommand]
  · simp [moduleAPIRegisterHandler]

/-! ## Module loading (`core/kernel.py`)

`Kernel._load_module` (lines 109-154): after importing the module file it
scans `dir(module)` in order for the first attribute that is a class
implementing `ModuleInterface` (other than `ModuleInterface` itself),
instantiates it, awaits `setup`, and only then inserts the instance into
`self._modules`; if no attribute matches it raises `ValueError`, and any
exception (including one from `setup`) is re-raised after logging.  An
attribute of the module namespace is modelled by its name together with
whether it is a contract-implementing class; `setup` raising is an
explicit boolean. -/

structure ModuleAttr where
  attrName : String
  isContractClass : Bool
deriving DecidableEq, Repr

inductive LoadError
  | noModuleClass
  | setupFailed
deriving DecidableEq, Repr

/-- The `for attr_name in dir(module)` scan: the first contract class, if
any. -/
def findModuleClass (attrs : List ModuleAttr) : Option ModuleAttr :=
  attrs.find? (·.isContractClass)

/-- `Kernel._load_module`: returns the new loaded-module map and the error
propagated, if any. -/
def loadModule (modules : List (String × Nat)) (moduleName : String)
    (attrs : List ModuleAttr) (setupFails : Bool) (inst : Nat) :
    List (String × Nat) × Option LoadError :=
  match findModuleClass attrs with
  | none => (modules, some .noModuleClass)
  | some _ =>
    if setupFails then (modules, some .setupFailed)
    else (dictInsert modules moduleName inst, none)

/-- `Kernel.get_module`: `self._modules.get(name)`. -/
def getModule (modules : List (String × Nat)) (name : String) : Option Nat :=
  dictLookup modules name

theorem find_eq_filter_head {α : Type} (p : α → Bool) (l : List α) :
    l.find? p = (l.filter p).head? := by
  induction l with
  | nil => rfl
  | cons x xs ih =>
    cases h : p x
    · rw [List.find?_cons_of_neg _ (by simp [h]),
        List.filter_cons_of_neg (by simp [h]), ih]
    · rw [List.find?_cons_of_pos _ h, List.filter_cons_of_pos h, List.head?]

/-- C4 counterexample: a module namespace with *two* contract-implementing
classes loads successfully (the scan takes the first in `dir` order) — it
is not an error, contradicting the claim that more than one such class
aborts the load. -/
theorem load_module_two_classes_not_an_error :
    findModuleClass [⟨"AlphaMod", true⟩, ⟨"BetaMod", true⟩] =
      some ⟨"AlphaMod", true⟩ ∧
    (loadModule [] "user.x" [⟨"AlphaMod", true⟩, ⟨"BetaMod", true⟩]
        false 7).2 = none ∧
    getModule (loadModule [] "user.x" [⟨"AlphaMod", true⟩, ⟨"BetaMod", true⟩]
        false 7).1 "user.x" = some 7 := by
  decide

/-- C4 (amended): loading errors exactly when *zero* classes in the module
namespace satisfy the contract; when one or more satisfy it, the first one
in namespace order is instantiated and the load succeeds, even if several
are present. -/
theorem load_module_class_selection (modules : List (String × Nat))
    (moduleName : String) (attrs : List ModuleAttr) (inst : Nat) :
    (attrs.filter (·.isContractClass) = [] →
      (loadModule modules moduleName attrs false inst).2 =
        some .noModuleClass) ∧
    (∀ a rest, attrs.filter (·.isContractClass) = a :: rest →
      findModuleClass attrs = some a ∧
      (loadModule modules moduleName attrs false inst).2 = none) := by
  constructor
  · intro hnone
    have : findModuleClass attrs = none := by
      rw [findModuleClass, find_eq_filter_head, hnone]; rfl
    simp [loadModule, this]
  · intro a rest hfirst
    have hfind : findModuleClass attrs = some a := by
      rw [findModuleClass, find_eq_filter_head, hfirst]; rfl
    exact ⟨hfind, by simp [loadModule, hfind]⟩

/-- Witness for the amended C4: one namespace with no contract class
errors; one whose filter yields two contract classes loads the first. -/
theorem load_module_class_selection_witness :
    (loadModule [] "user.a" [⟨"helper", false⟩] false 1).2 =
      some LoadError.noModuleClass ∧
    findModuleClass [⟨"AlphaMod", true⟩, ⟨"helper", false⟩, ⟨"BetaMod", true⟩]
      = some ⟨"AlphaMod", true⟩ :=
  ⟨(load_module_class_selection [] "user.a" [⟨"helper", false⟩] 1).1
      (by decide),
    ((load_module_class_selection [] "user.a"
        [⟨"AlphaMod", true⟩, ⟨"helper", false⟩, ⟨"BetaMod", true⟩] 1).2
      ⟨"AlphaMod", true⟩ [⟨"BetaMod", true⟩] (by decide)).1⟩

/-- C6: if `setup` raises, an error is propagated, the loaded-module map is
left exactly as it was, and `get_module` still reports the name absent. -/
theorem setup_failure_leaves_module_unloaded (modules : List (String × Nat))
    (moduleName : String) (attrs : List ModuleAttr) (inst : Nat)
    (habsent : getModule modules moduleName = none) :
    (loadModule modules moduleName attrs true inst).2.isSome ∧
    (loadModule modules moduleName attrs true inst).1 = modules ∧
    getModule (loadModule modules moduleName attrs true inst).1 moduleName =
      none := by
  cases hfind : findModuleClass attrs <;>
    simp [loadModule, hfind, habsent]

/-- Witness for C6 on a concrete one-class module whose `setup` raises. -/
theorem setup_failure_leaves_module_unloaded_witness :
    getModule [("system.database", 0)] "system.logger" = none ∧
    (loadModule [("system.database", 0)] "system.logger"
        [⟨"LoggerMod", true⟩] true 3).1 = [("system.database", 0)] ∧
    getModule (loadModule [("system.database", 0)] "system.logger"
        [⟨"LoggerMod", true⟩] true 3).1 "system.logger" = none :=
  ⟨by decide,
    (setup_failure_leaves_module_unloaded [("system.database", 0)]
      "system.logger" [⟨"LoggerMod", true⟩] 3 (by decide)).2.1,
    (setup_failure_leaves_module_unloaded [("system.database", 0)]
      "system.logger" [⟨"LoggerMod", true⟩] 3 (by decide)).2.2⟩

/-! ## `Kernel._load_modules` (lines 66-94)

The fixed core-module order, the two critical names whose failure is
re-raised, and the two loading loops.  Whether loading a given module
raises (file missing, no contract class, `setup` failure, …) is abstracted
as `fails : String → Bool`.  `LoadOutcome` records which modules the loop
attempted to load (in order), which loads succeeded, and the critical
module whose error propagated out of the loop, if any. -/

def CORE_MODULES : List String :=
  ["system.database", "system.logger", "system.security", "system.api",
   "system.notifications", "system.scheduler", "system.stats",
   "system.admin", "system.module_manager", "system.backup", "system.base"]

/-- The `module_name in ["system.database", "system.security"]` test. -/
def criticalModules : List String := ["system.database", "system.security"]

structure LoadOutcome where
  attempted : List String
  loaded : List String
  fatal : Option String
deriving DecidableEq, Repr

/-- The core-module loop: every failure is caught and logged, then
re-raised when the module is one of the two critical names, which ends the
loop. -/
def loadCoreLoop (fails : String → Bool) : List String → LoadOutcome
  | [] => ⟨[], [], none⟩
  | m :: rest =>
    if fails m then
      if m ∈ criticalModules then ⟨[m], [], some m⟩
      else
        let r := loadCoreLoop fails rest
        ⟨m :: r.attempted, r.loaded, r.fatal⟩
    else
      let r := loadCoreLoop fails rest
      ⟨m :: r.attempted, m :: r.loaded, r.fatal⟩

/-- The user-module loop: every failure is caught and logged, never
re-raised. -/
def loadUserLoop (fails : String → Bool) : List String → LoadOutcome
  | [] => ⟨[], [], none⟩
  | m :: rest =>
    let r := loadUserLoop fails rest
    if fails m then ⟨m :: r.attempted, r.loaded, none⟩
    else ⟨m :: r.attempted, m :: r.loaded, none⟩

/-- `Kernel._load_modules`: core modules in the fixed order, then the user
modules (directory-enumeration order); a critical-module error propagates
before the user loop is reached. -/
def loadModules (fails : String → Bool) (userModules : List String) :
    LoadOutcome :=
  let core := loadCoreLoop fails CORE_MODULES
  match core.fatal with
  | some e => ⟨core.attempted, core.loaded, some e⟩
  | none =>
    let user := loadUserLoop fails userModules
    ⟨core.attempted ++ user.attempted, core.loaded ++ user.loaded, none⟩

theorem loadCoreLoop_no_critical_failure (fails : String → Bool)
    (ms : List String)
    (h : ∀ m ∈ ms, m ∈ criticalModules → fails m = false) :
    (loadCoreLoop fails ms).fatal = none ∧
    (loadCoreLoop fails ms).attempted = ms := by
  induction ms with
  | nil => exact ⟨rfl, rfl⟩
  | cons m rest ih =>
    have hrest := ih (fun x hx => h x (List.mem_cons_of_mem m hx))
    cases hf : fails m
    · simp [loadCoreLoop, hf, hrest.1, hrest.2]
    · have hm : m ∉ criticalModules := by
        intro hc
        have := h m (List.mem_cons_self m rest) hc
        rw [hf] at this
        cases this
      simp [loadCoreLoop, hf, hm, hrest.1, hrest.2]

theorem loadUserLoop_never_fatal (fails : String → Bool) (ms : List String) :
    (loadUserLoop fails ms).fatal = none ∧
    (loadUserLoop fails ms).attempted = ms := by
  induction ms with
  | nil => exact ⟨rfl, rfl⟩
  | cons m rest ih =>
    cases hf : fails m <;> simp [loadUserLoop, hf, ih.1, ih.2]

/-- C2: a `setup` failure of `system.database` or `system.security`
propagates out of the load loop, so the remaining modules of the fixed
core list (and all user modules) are never attempted; when neither
critical module fails, every core and user module is attempted, whatever
other failures occur. -/
theorem critical_core_module_failure_aborts_loading (fails : String → Bool)
    (userModules : List String) :
    (fails "system.database" = true →
      (loadModules fails userModules).fatal = some "system.database" ∧
      (loadModules fails userModules).attempted = ["system.database"]) ∧
    (fails "system.database" = false → fails "system.security" = true →
      (loadModules fails userModules).fatal = some "system.security" ∧
      (loadModules fails userModules).attempted =
        ["system.database", "system.logger", "system.security"]) ∧
    (fails "system.database" = false → fails "system.security" = false →
      (loadModules fails userModules).fatal = none ∧
      (loadModules fails userModules).attempted =
        CORE_MODULES ++ userModules) := by
  refine ⟨?_, ?_, ?_⟩
  · intro hdb
    simp [loadModules, loadCoreLoop, CORE_MODULES, criticalModules, hdb]
  · intro hdb hsec
    cases hlog : fails "system.logger" <;>
      simp [loadModules, loadCoreLoop, CORE_MODULES, criticalModules,
        hdb, hsec, hlog]
  · intro hdb hsec
    have hcore := loadCoreLoop_no_critical_failure fails CORE_MODULES ?_
    · have huser := loadUserLoop_never_fatal fails userModules
      rw [loadModules]
      rw [hcore.1]
      simp [hcore.2, huser.2]
    · intro m _ hc
      simp only [criticalModules, List.mem_cons, List.mem_singleton,
        List.not_mem_nil, or_false] at hc
      rcases hc with h1 | h1
      · rw [h1]; exact hdb
      · rw [h1]; exact hsec

/-- Witness for C2: a run where only `system.database` fails aborts with
the database error after attempting only the database module. -/
theorem critical_core_module_failure_aborts_loading_witness :
    ((fun m => m == "system.database") "system.database" = true) ∧
    (loadModules (fun m => m == "system.database") ["user.alpha"]).fatal =
      some "system.database" ∧
    (loadModules (fun m => m == "system.database") ["user.alpha"]).attempted =
      ["system.database"] :=
  ⟨by decide,
    ((critical_core_module_failure_aborts_loading
        (fun m => m == "system.database") ["user.alpha"]).1 (by decide)).1,
    ((critical_core_module_failure_aborts_loading
        (fun m => m == "system.database") ["user.alpha"]).1 (by decide)).2⟩

/-! ## `Kernel.stop` (lines 195-232)

The kernel state tracked by `stop`: the running flag, the loaded-module
map (insertion order = load order) and the service map.  A module's
`cleanup` raising is caught inside the loop (the loop continues), so it is
abstracted as `cleanupRaises`; the trace records, in invocation order,
each module on which `cleanup` was invoked and whether it succeeded.  The
`finally` block clears both maps unconditionally. -/

structure KernelState where
  running : Bool
  modules : List (String × Nat)
  services : List (String × Nat)
deriving DecidableEq, Repr

/-- The per-module cleanup loop over `reversed(list(self._modules.keys()))`:
each module's `cleanup` is invoked; an exception is caught and logged and
the loop continues. -/
def cleanupLoop (cleanupRaises : String → Bool) :
    List String → List (String × Bool)
  | [] => []
  | m :: rest => (m, !cleanupRaises m) :: cleanupLoop cleanupRaises rest

/-- `Kernel.stop`: no-op when not running; otherwise clears the running
flag, runs the reverse-order cleanup loop (all exceptions caught), and in
the `finally` block clears the module and service maps. -/
def stop (st : KernelState) (cleanupRaises : String → Bool) :
    KernelState × List (String × Bool) :=
  if !st.running then (st, [])
  else
    let trace := cleanupLoop cleanupRaises (st.modules.map Prod.fst).reverse
    (⟨false, [], []⟩, trace)

theorem cleanupLoop_names (cleanupRaises : String → Bool)
    (ms : List String) :
    (cleanupLoop cleanupRaises ms).map Prod.fst = ms := by
  induction ms with
  | nil => rfl
  | cons m rest ih => simp [cleanupLoop, ih]

/-- C7: `stop()` is a no-op when the kernel is not running; when running,
it invokes each loaded module's `cleanup` exactly in reverse load order
(even when some cleanups raise) and leaves both the module map and the
service map empty afterwards. -/
theorem stop_reverse_cleanup_and_clears (st : KernelState)
    (cleanupRaises : String → Bool) :
    (st.running = false → stop st cleanupRaises = (st, [])) ∧
    (st.running = true →
      (stop st cleanupRaises).2.map Prod.fst =
        (st.modules.map Prod.fst).reverse ∧
      (stop st cleanupRaises).1.modules = [] ∧
      (stop st cleanupRaises).1.services = []) := by
  constructor
  · intro hr
    simp [stop, hr]
  · intro hr
    refine ⟨?_, ?_, ?_⟩ <;>
      simp [stop, hr, cleanupLoop_names]

/-- Witness for C7: modules loaded in order `[A, B, C]` (with `B`'s
cleanup raising) are cleaned up in order `[C, B, A]` and both maps end
empty; a non-running kernel is untouched. -/
theorem stop_reverse_cleanup_and_clears_witness :
    (stop ⟨false, [("A", 0)], [("registry", 9)]⟩ (fun _ => false) =
      (⟨false, [("A", 0)], [("registry", 9)]⟩, [])) ∧
    ((stop ⟨true, [("A", 0), ("B", 1), ("C", 2)], [("registry", 9)]⟩
        (fun m => m == "B")).2.map Prod.fst = ["C", "B", "A"] ∧
      (stop ⟨true, [("A", 0), ("B", 1), ("C", 2)], [("registry", 9)]⟩
        (fun m => m == "B")).1.modules = [] ∧
      (stop ⟨true, [("A", 0), ("B", 1), ("C", 2)], [("registry", 9)]⟩
        (fun m => m == "B")).1.services = []) :=
  ⟨(stop_reverse_cleanup_and_clears ⟨false, [("A", 0)], [("registry", 9)]⟩
      (fun _ => false)).1 rfl,
    (stop_reverse_cleanup_and_clears
      ⟨true, [("A", 0), ("B", 1), ("C", 2)], [("registry", 9)]⟩
      (fun m => m == "B")).2 rfl⟩

/-! ## Event Bus (`core/events.py`)

`Event` carries a name, an accumulated result list and a processed flag
(payload, sender and creation timestamp are claim-irrelevant and elided;
handler results are `Nat` ids).  `EventManager._add_to_history`
(lines 76-80) appends the event and pops the front element when the length
exceeds `self._max_history`.  `EventManager.emit` (lines 26-52) threads
the event through the middleware list (an exception is logged and that
middleware skipped; a falsy return value cancels delivery: `emit` returns
`None` before any handler runs), then invokes every handler subscribed to
the *original* event name in registration order (an exception is logged
and that handler's result dropped, the loop continuing), marks the event
processed, records it in the history, and returns it. -/

structure BusEvent where
  name : String
  results : List Nat
  processed : Bool
deriving DecidableEq, Repr

/-- Outcome of awaiting one middleware on an event: a return value
(possibly falsy, i.e. `none`) or a raised exception. -/
inductive MWOut
  | ret (e : Option BusEvent)
  | exn

/-- Outcome of awaiting one handler on an event: a result value or a
raised exception. -/
inductive HOut
  | ok (r : Nat)
  | exn

/-- `EventManager._add_to_history`: append, then pop the oldest entry when
over capacity. -/
def addToHistory {α : Type} (history : List α) (maxHistory : Nat)
    (event : α) : List α :=
  if maxHistory < (history ++ [event]).length then (history ++ [event]).drop 1
  else history ++ [event]

/-- The middleware loop of `emit`: each middleware may transform the event
(its return value replaces it), cancel delivery (falsy return), or raise
(caught and logged, the previous event kept). -/
def applyMiddleware : List (BusEvent → MWOut) → BusEvent → Option BusEvent
  | [], e => some e
  | mw :: rest, e =>
    match mw e with
    | .exn => applyMiddleware rest e
    | .ret none => none
    | .ret (some e') => applyMiddleware rest e'

/-- The handler loop of `emit`: every handler is invoked on the current
event; a successful result is appended to `event.results`, a raised
exception is caught and logged.  The second component counts the handlers
that were invoked. -/
def runHandlers : List (BusEvent → HOut) → BusEvent → BusEvent × Nat
  | [], e => (e, 0)
  | h :: rest, e =>
    match h e with
    | .ok r =>
      let p := runHandlers rest { e with results := e.results ++ [r] }
      (p.1, p.2 + 1)
    | .exn =>
      let p := runHandlers rest e
      (p.1, p.2 + 1)

/-- `EventManager.emit`: build the event, run middleware (cancellation
returns `none` with no handler invoked and the history untouched), run
the handlers subscribed to the emitted name, mark processed, record in
history.  Returns the emitted event (if any), the number of handlers
invoked, and the new history. -/
def emit (middlewares : List (BusEvent → MWOut))
    (handlers : List (BusEvent → HOut)) (history : List BusEvent)
    (maxHistory : Nat) (eventName : String) :
    Option BusEvent × Nat × List BusEvent :=
  match applyMiddleware middlewares ⟨eventName, [], false⟩ with
  | none => (none, 0, history)
  | some e =>
    let p := runHandlers handlers e
    let final : BusEvent := { p.1 with processed := true }
    (some final, p.2, addToHistory history maxHistory final)

theorem runHandlers_count (hs : List (BusEvent → HOut)) (e : BusEvent) :
    (runHandlers hs e).2 = hs.length := by
  induction hs generalizing e with
  | nil => rfl
  | cons h rest ih =>
    cases hout : h e <;> simp [runHandlers, hout, ih]

/-- C8: the event history never exceeds the configured maximum (every
emission preserves the bound), and an emission arriving with the history
at capacity evicts exactly the single oldest entry, all others being
retained in order. -/
theorem add_to_history_bounded {α : Type} (history : List α)
    (maxHistory : Nat) (event : α) (hle : history.length ≤ maxHistory) :
    (addToHistory history maxHistory event).length ≤ maxHistory ∧
    (history.length < maxHistory →
      addToHistory history maxHistory event = history ++ [event]) ∧
    (history.length = maxHistory →
      addToHistory history maxHistory event =
        history.drop 1 ++ [event] ∨
      (maxHistory = 0 ∧ addToHistory history maxHistory event = [])) := by
  have hlen : (history ++ [event]).length = history.length + 1 := by simp
  refine ⟨?_, ?_, ?_⟩
  · rw [addToHistory]
    by_cases h : maxHistory < (history ++ [event]).length
    · rw [if_pos h, List.length_drop]
      omega
    · rw [if_neg h]
      omega
  · intro hlt
    rw [addToHistory, if_neg (by omega)]
  · intro heq
    rcases Nat.eq_zero_or_pos maxHistory with hz | hpos
    · right
      refine ⟨hz, ?_⟩
      have hnil : history = [] := List.length_eq_zero.mp (by omega)
      subst hnil
      rw [addToHistory, if_pos (by simp [hz])]
      rfl
    · left
      rw [addToHistory, if_pos (by omega)]
      rw [List.drop_append_of_le_length (by omega)]

/-- Witness for C8: with capacity 3 and a full history `[10, 11, 12]`,
adding `13` evicts exactly `10`; with history `[10, 11]`, adding `12`
appends. -/
theorem add_to_history_bounded_witness :
    (addToHistory [10, 11, 12] 3 13).length ≤ 3 ∧
    addToHistory [10, 11] 3 12 = [10, 11, 12] ∧
    addToHistory [10, 11, 12] 3 13 = [11, 12, 13] :=
  ⟨(add_to_history_bounded [10, 11, 12] 3 13 (by decide)).1,
    (add_to_history_bounded [10, 11] 3 12 (by decide)).2.1 (by decide),
    by
      have := (add_to_history_bounded [10, 11, 12] 3 13 (by decide)).2.2 rfl
      rcases this with h | ⟨h0, _⟩
      · exact h
      · cases h0⟩

/-- C9: when the middleware pass yields no event (some middleware returned
a falsy value), `emit` returns no event, invokes zero handlers and leaves
the history untouched; when the middleware pass yields an event, every
subscribed handler is invoked — a raising handler never stops the later
ones — and `emit` returns the event marked processed. -/
theorem emit_middleware_cancel_and_handler_isolation
    (middlewares : List (BusEvent → MWOut))
    (handlers : List (BusEvent → HOut)) (history : List BusEvent)
    (maxHistory : Nat) (eventName : String) :
    (applyMiddleware middlewares ⟨eventName, [], false⟩ = none →
      emit middlewares handlers history maxHistory eventName =
        (none, 0, history)) ∧
    (∀ e, applyMiddleware middlewares ⟨eventName, [], false⟩ = some e →
      (emit middlewares handlers history maxHistory eventName).2.1 =
        handlers.length ∧
      ∃ e', (emit middlewares handlers history maxHistory eventName).1 =
          some e' ∧ e'.processed = true) := by
  constructor
  · intro hcancel
    simp [emit, hcancel]
  · intro e hsome
    rw [emit, hsome]
    exact ⟨by simp [runHandlers_count], _, rfl, rfl⟩

/-- Witness for C9: a cancelling middleware suppresses a would-be handler
run; with no middleware, a first raising handler does not stop the second,
both are invoked, and the returned event is processed. -/
theorem emit_middleware_cancel_and_handler_isolation_witness :
    emit [fun _ => MWOut.ret none] [fun _ => HOut.ok 1] [] 1000 "ping" =
      (none, 0, []) ∧
    (emit [] [fun _ => HOut.exn, fun _ => HOut.ok 4] [] 1000 "ping").2.1 =
      2 ∧
    ∃ e', (emit [] [fun _ => HOut.exn, fun _ => HOut.ok 4] [] 1000
        "ping").1 = some e' ∧ e'.processed = true :=
  ⟨(emit_middleware_cancel_and_handler_isolation [fun _ => MWOut.ret none]
      [fun _ => HOut.ok 1] [] 1000 "ping").1 rfl,
    ((emit_middleware_cancel_and_handler_isolation []
      [fun _ => HOut.exn, fun _ => HOut.ok 4] [] 1000 "ping").2
      ⟨"ping", [], false⟩ rfl).1,
    ((emit_middleware_cancel_and_handler_isolation []
      [fun _ => HOut.exn, fun _ => HOut.ok 4] [] 1000 "ping").2
      ⟨"ping", [], false⟩ rfl).2⟩

end SDB
